import Mathlib

/-!
Verification development for the djvubind repository.

The repository consists of two Python packages: the current one,
`djvubind` (files `djvubind/utils.py` and `djvubind/organizer.py`), and an
older one, `Djvubind` (file `Djvubind/organizer.py`).  This file gives a
shallow embedding of the functions that the claims concern and proves the
claims about them.

Conventions of the embedding:
* Python strings are Lean `String`s; positions and lengths count unicode
  code points, as Python `len` does.
* Python string methods (`strip`, `rstrip`, `startswith`, `split`) are
  re-implemented over `List Char` so that every definition is executable
  and kernel-reducible.  The whitespace set is the ASCII part of the set
  used by the Python `str.strip` family.
* Stateful methods become functions from the old state to the new state
  together with their observable output (diagnostic messages, file-system
  effects).
* A Python `while` loop that can run forever is embedded as a total
  function into `Option`, where `none` marks exactly the executions in
  which the loop never terminates.
-/

/-- Whitespace predicate of the Python `str.strip` family (ASCII part:
space, tab, newline, carriage return, vertical tab, form feed). -/
def pyWs (c : Char) : Bool :=
  c = ' ' || c = '\t' || c = '\n' || c = '\x0d' || c = '\x0b' || c = '\x0c'

/-- Remove trailing whitespace from a character list (the list-level core
of Python `str.rstrip`). -/
def dropTrailingWs (l : List Char) : List Char :=
  (l.reverse.dropWhile pyWs).reverse

/-- Python `str.rstrip()`. -/
def pyRstrip (s : String) : String :=
  String.mk (dropTrailingWs s.data)

/-- List-level core of Python `str.strip()`: leading and trailing
whitespace removed. -/
def pyStripL (l : List Char) : List Char :=
  dropTrailingWs (l.dropWhile pyWs)

/-- Python `str.strip()`. -/
def pyStrip (s : String) : String :=
  String.mk (pyStripL s.data)

/-- Bool test that `pat` occurs at the front of `s` (list-level core of
Python `str.startswith`). -/
def leadsWith : List Char → List Char → Bool
  | [], _ => true
  | _ :: _, [] => false
  | a :: as, b :: bs => if a = b then leadsWith as bs else false

/-- Python `s.startswith(pat)`. -/
def pyStartswith (s pat : String) : Bool :=
  leadsWith pat.data s.data

/-- Split a character list at the first occurrence of `c`:
`some (before, after)` when `c` occurs, `none` when it does not.  This is
the combination of the Python tests `c in line` and `line.split(c, 1)`. -/
def splitOnceL (c : Char) : List Char → Option (List Char × List Char)
  | [] => none
  | x :: xs =>
    if x = c then some ([], xs)
    else
      match splitOnceL c xs with
      | none => none
      | some (a, b) => some (x :: a, b)

/-- List-level core of Python `str.split(c)` for a single-character
separator: consecutive separators produce empty fields, and the result is
never the empty list. -/
def pySplitChar (c : Char) : List Char → List (List Char)
  | [] => [[]]
  | x :: xs =>
    let r := pySplitChar c xs
    if x = c then [] :: r
    else
      match r with
      | [] => [[x]]
      | g :: gs => (x :: g) :: gs

/-- Python `s.split(c)` for a single-character separator. -/
def pySplit (s : String) (c : Char) : List String :=
  (pySplitChar c s.data).map String.mk

namespace djvubind
namespace utils

/-- The body of the `while` loop of `utils.split_cmd`, iterated to the
end of the input.  `startSp` is the Python variable `start` after the
mutation `start = start + ' '`; `endSp` is `end` after `end = ' ' + end`;
`buffer` and `cmds` are the loop variables.  One recursive call covers the
loop iterations that handle the head file: either the length check passes
and the file is popped into the buffer, or the buffer is closed (suffix
appended, command recorded) and reset, after which the same file is
checked against the fresh buffer.  When the file fails the length check
even against a fresh buffer the Python loop closes and resets the buffer
forever without ever popping the file; that non-terminating execution is
embedded as the result `none`. -/
def split_cmd_go (startSp endSp : String) :
    List String → String → List String → Option (List String)
  | [], buffer, cmds => some (cmds ++ [buffer ++ pyRstrip endSp])
  | f :: fs, buffer, cmds =>
    if buffer.length + f.length + endSp.length + 3 < 32000 then
      split_cmd_go startSp endSp fs (buffer ++ " \"" ++ f ++ "\"") cmds
    else if startSp.length + f.length + endSp.length + 3 < 32000 then
      split_cmd_go startSp endSp fs (startSp ++ " \"" ++ f ++ "\"")
        (cmds ++ [buffer ++ pyRstrip endSp])
    else none

/-- `utils.split_cmd(start, files, end)`.  The Python default for the
third argument is the empty string.  `none` marks the executions in which
the Python loop never terminates. -/
def split_cmd (start : String) (files : List String) (endStr : String) :
    Option (List String) :=
  split_cmd_go (start ++ " ") (" " ++ endStr) files (start ++ " ") []

/-- How `split_cmd` renders one file into the buffer: a separating space
and surrounding double quotes. -/
def wrapFile (f : String) : String :=
  " \"" ++ f ++ "\""

/-- The full command string of a batch holding the files `fs`, as built
by `split_cmd`: mutated start, each file quoted, right-stripped mutated
end. -/
def renderBatch (startSp endSp : String) (fs : List String) : String :=
  startSp ++ String.join (fs.map wrapFile) ++ pyRstrip endSp

/-- Rendering of a list of batches whose first batch starts from the
string `buffer` instead of from `startSp` (used to state the loop
invariant of `split_cmd_go`). -/
def renderFrom (startSp endSp buffer : String) :
    List (List String) → List String
  | [] => []
  | g :: gs =>
    (buffer ++ String.join (g.map wrapFile) ++ pyRstrip endSp)
      :: gs.map (renderBatch startSp endSp)

end utils
end djvubind

-- basic string facts used throughout

theorem string_mk_data (s : String) : String.mk s.data = s := rfl

theorem string_append_def (a b : String) :
    a ++ b = String.mk (a.data ++ b.data) := rfl

theorem string_empty_append (s : String) : "" ++ s = s := by
  cases s
  rfl

theorem string_append_empty (s : String) : s ++ "" = s := by
  cases s with
  | mk d =>
    show String.mk (d ++ []) = String.mk d
    rw [List.append_nil]

theorem string_append_assoc (a b c : String) :
    a ++ b ++ c = a ++ (b ++ c) := by
  cases a with
  | mk da =>
    cases b with
    | mk db =>
      cases c with
      | mk dc =>
        show String.mk (da ++ db ++ dc) = String.mk (da ++ (db ++ dc))
        rw [List.append_assoc]

theorem string_length_data (s : String) : s.length = s.data.length := rfl

theorem string_join_cons (s : String) (l : List String) :
    String.join (s :: l) = s ++ String.join l := by
  have aux : ∀ (l : List String) (acc : String),
      l.foldl (fun r t => r ++ t) acc = acc ++ String.join l := by
    intro l
    induction l with
    | nil => intro acc; exact (string_append_empty acc).symm
    | cons x xs ih =>
      intro acc
      show xs.foldl (fun r t => r ++ t) (acc ++ x) = acc ++ String.join (x :: xs)
      rw [ih (acc ++ x)]
      show acc ++ x ++ String.join xs = acc ++ xs.foldl (fun r t => r ++ t) ("" ++ x)
      rw [ih ("" ++ x), string_empty_append, string_append_assoc]
  show (s :: l).foldl (fun r t => r ++ t) "" = s ++ String.join l
  show l.foldl (fun r t => r ++ t) ("" ++ s) = s ++ String.join l
  rw [aux l ("" ++ s), string_empty_append]

theorem pyRstrip_length_le (s : String) : (pyRstrip s).length ≤ s.length := by
  show (dropTrailingWs s.data).length ≤ s.data.length
  unfold dropTrailingWs
  rw [List.length_reverse]
  calc (s.data.reverse.dropWhile pyWs).length
      ≤ s.data.reverse.length := (List.dropWhile_sublist pyWs).length_le
    _ = s.data.length := List.length_reverse s.data

namespace djvubind
namespace utils

theorem renderFrom_cons (startSp endSp buffer : String) (g : List String)
    (gs : List (List String)) :
    renderFrom startSp endSp buffer (g :: gs) =
      (buffer ++ String.join (g.map wrapFile) ++ pyRstrip endSp)
        :: gs.map (renderBatch startSp endSp) := rfl

theorem renderFrom_map (startSp endSp : String) (g : List String)
    (gs : List (List String)) :
    renderFrom startSp endSp startSp (g :: gs) =
      (g :: gs).map (renderBatch startSp endSp) := rfl

theorem renderFrom_absorb (startSp endSp buffer : String) (f : String)
    (g : List String) (gs : List (List String)) :
    renderFrom startSp endSp buffer ((f :: g) :: gs) =
      renderFrom startSp endSp (buffer ++ " \"" ++ f ++ "\"") (g :: gs) := by
  rw [renderFrom_cons, renderFrom_cons]
  congr 1
  rw [List.map_cons, string_join_cons]
  simp only [wrapFile, string_append_assoc]

/-- Loop invariant of `split_cmd_go` for the partition property: a
successful run appends to `cmds` the renderings of a list of batches, the
first of which continues the current buffer, and the batch contents
concatenate to the remaining input. -/
theorem split_cmd_go_partition (startSp endSp : String) :
    ∀ (fs : List String) (buffer : String) (cmds out : List String),
      split_cmd_go startSp endSp fs buffer cmds = some out →
      ∃ gss : List (List String), gss ≠ [] ∧ gss.flatten = fs ∧
        out = cmds ++ renderFrom startSp endSp buffer gss := by
  intro fs
  induction fs with
  | nil =>
    intro buffer cmds out h
    refine ⟨[[]], by simp, by simp, ?_⟩
    unfold split_cmd_go at h
    simp only [Option.some.injEq] at h
    rw [← h, renderFrom_cons]
    show cmds ++ [buffer ++ pyRstrip endSp] =
      cmds ++ [buffer ++ String.join [] ++ pyRstrip endSp]
    rw [show String.join [] = "" from rfl, string_append_empty]
  | cons f fs ih =>
    intro buffer cmds out h
    unfold split_cmd_go at h
    by_cases h1 : buffer.length + f.length + endSp.length + 3 < 32000
    · rw [if_pos h1] at h
      obtain ⟨gss, hne, hjoin, hout⟩ := ih _ _ _ h
      cases gss with
      | nil => exact absurd rfl hne
      | cons g gs =>
        refine ⟨(f :: g) :: gs, by simp, ?_, ?_⟩
        · show f :: (g :: gs).flatten = f :: fs
          rw [hjoin]
        · rw [hout, renderFrom_absorb]
    · rw [if_neg h1] at h
      by_cases h2 : startSp.length + f.length + endSp.length + 3 < 32000
      · rw [if_pos h2] at h
        obtain ⟨gss, hne, hjoin, hout⟩ := ih _ _ _ h
        cases gss with
        | nil => exact absurd rfl hne
        | cons g gs =>
          refine ⟨[] :: (f :: g) :: gs, by simp, ?_, ?_⟩
          · show [] ++ (f :: (g :: gs).flatten) = f :: fs
            rw [List.nil_append, hjoin]
          · rw [hout]
            have hr : renderFrom startSp endSp buffer ([] :: (f :: g) :: gs) =
                (buffer ++ pyRstrip endSp)
                  :: renderFrom startSp endSp (startSp ++ " \"" ++ f ++ "\"")
                    (g :: gs) := by
              rw [renderFrom_cons, ← renderFrom_map, renderFrom_absorb]
              rw [show String.join ([].map wrapFile) = "" from rfl,
                string_append_empty]
            rw [hr, List.append_assoc, List.singleton_append]
      · rw [if_neg h2] at h
        exact absurd h (by simp)

/-- C1.  For every non-empty file list, when `split_cmd` returns, its
batches are exactly the renderings (mutated start, then each input file
wrapped in a separating space and double quotes, then the right-stripped
mutated end) of a list of groups that concatenates, in order, to the
input list: no file is omitted, duplicated, reordered, or split across
two batches. -/
theorem split_cmd_partitions_input (start endStr : String)
    (files : List String) (cmds : List String)
    (hne : files ≠ [])
    (h : split_cmd start files endStr = some cmds) :
    ∃ gss : List (List String), gss.flatten = files ∧
      cmds = gss.map (renderBatch (start ++ " ") (" " ++ endStr)) := by
  obtain ⟨gss, hgne, hjoin, hout⟩ := split_cmd_go_partition _ _ _ _ _ _ h
  refine ⟨gss, hjoin, ?_⟩
  rw [hout]
  cases gss with
  | nil => exact absurd rfl hgne
  | cons g gs =>
    rw [List.nil_append, renderFrom_map]

/-- Witness for C1 at a concrete input. -/
theorem split_cmd_partitions_input_witness :
    ∃ gss : List (List String), gss.flatten = ["f1", "f2"] ∧
      ["djvm -c out.djvu  \"f1\" \"f2\""] =
        gss.map (renderBatch ("djvm -c out.djvu" ++ " ") (" " ++ "")) :=
  split_cmd_partitions_input "djvm -c out.djvu" "" ["f1", "f2"]
    ["djvm -c out.djvu  \"f1\" \"f2\""] (by decide) (by decide)

end utils
end djvubind

namespace djvubind
namespace utils

theorem wrap_length (buffer f : String) :
    (buffer ++ " \"" ++ f ++ "\"").length = buffer.length + f.length + 3 := by
  rw [String.length_append, String.length_append, String.length_append]
  show buffer.length + 2 + f.length + 1 = buffer.length + f.length + 3
  omega

/-- Loop invariant of `split_cmd_go` for the length-ceiling property:
every recorded command stays at or under the ceiling, provided the
rendering of an empty batch does. -/
theorem split_cmd_go_length (startSp endSp : String)
    (H : startSp.length + (pyRstrip endSp).length ≤ 32000) :
    ∀ (fs : List String) (buffer : String) (cmds out : List String),
      split_cmd_go startSp endSp fs buffer cmds = some out →
      (buffer = startSp ∨ buffer.length + endSp.length < 32000) →
      (∀ c ∈ cmds, c.length ≤ 32000) →
      ∀ c ∈ out, c.length ≤ 32000 := by
  have hclose : ∀ buffer : String,
      (buffer = startSp ∨ buffer.length + endSp.length < 32000) →
      (buffer ++ pyRstrip endSp).length ≤ 32000 := by
    intro buffer hbuf
    rw [String.length_append]
    rcases hbuf with rfl | hlt
    · exact H
    · have := pyRstrip_length_le endSp
      omega
  intro fs
  induction fs with
  | nil =>
    intro buffer cmds out h hbuf hcmds c hc
    unfold split_cmd_go at h
    simp only [Option.some.injEq] at h
    rw [← h] at hc
    rcases List.mem_append.mp hc with hc1 | hc2
    · exact hcmds c hc1
    · rw [List.mem_singleton.mp hc2]
      exact hclose buffer hbuf
  | cons f fs ih =>
    intro buffer cmds out h hbuf hcmds c hc
    unfold split_cmd_go at h
    by_cases h1 : buffer.length + f.length + endSp.length + 3 < 32000
    · rw [if_pos h1] at h
      refine ih _ _ _ h (Or.inr ?_) hcmds c hc
      rw [wrap_length]
      omega
    · rw [if_neg h1] at h
      by_cases h2 : startSp.length + f.length + endSp.length + 3 < 32000
      · rw [if_pos h2] at h
        refine ih _ _ _ h (Or.inr ?_) ?_ c hc
        · rw [wrap_length]
          omega
        · intro d hd
          rcases List.mem_append.mp hd with hd1 | hd2
          · exact hcmds d hd1
          · rw [List.mem_singleton.mp hd2]
            exact hclose buffer hbuf
      · rw [if_neg h2] at h
        exact absurd h (by simp)

/-- C2 (amended).  Whenever `split_cmd` returns, every produced command
string has length at most the 32000-character ceiling, provided the
rendering of an empty batch (the start string, the separating space, and
the right-stripped suffix) itself fits in the ceiling; batches that
contain at least one file respect the ceiling unconditionally, so the
proviso only restricts the prefix/suffix pair. -/
theorem split_cmd_length_bound (start : String) (files : List String)
    (endStr : String) (cmds : List String)
    (h : split_cmd start files endStr = some cmds)
    (hbound : (start ++ " ").length + (pyRstrip (" " ++ endStr)).length ≤ 32000) :
    ∀ c ∈ cmds, c.length ≤ 32000 := by
  refine split_cmd_go_length _ _ hbound files _ _ _ h (Or.inl rfl) ?_
  intro c hc
  exact absurd hc (List.not_mem_nil c)

/-- Witness for C2 (amended) at a concrete input. -/
theorem split_cmd_length_bound_witness :
    ("a  \"f\" b" : String).length ≤ 32000 :=
  split_cmd_length_bound "a" ["f"] "b" ["a  \"f\" b"] (by decide) (by decide)
    "a  \"f\" b" (by decide)

/-- A start string long enough to push even a file-less batch over the
ceiling. -/
def bigName : String := String.mk (List.replicate 32000 'a')

theorem bigName_length : bigName.length = 32000 := by
  show (List.replicate 32000 'a').length = 32000
  rw [List.length_replicate]

/-- C2 counterexample: with a 32000-character start string and an empty
file list, the single produced command has 32001 characters, above the
ceiling. -/
theorem split_cmd_length_counterexample :
    split_cmd bigName [] "" = some [bigName ++ " "] ∧
      32000 < (bigName ++ " ").length := by
  constructor
  · have h0 : split_cmd bigName [] "" =
        some ([] ++ [bigName ++ " " ++ pyRstrip (" " ++ "")]) := rfl
    rw [h0, List.nil_append,
      show pyRstrip (" " ++ "") = "" from rfl, string_append_empty]
  · rw [String.length_append, bigName_length]
    show 32000 < 32000 + 1
    omega

/-- All-files-small half of the termination argument: when every file
passes the length check against a fresh buffer, the loop consumes the
whole list. -/
theorem split_cmd_go_total (startSp endSp : String) :
    ∀ (fs : List String) (buffer : String) (cmds : List String),
      (∀ f ∈ fs, startSp.length + f.length + endSp.length + 3 < 32000) →
      (split_cmd_go startSp endSp fs buffer cmds).isSome := by
  intro fs
  induction fs with
  | nil => intro buffer cmds _; rfl
  | cons f fs ih =>
    intro buffer cmds hall
    unfold split_cmd_go
    by_cases h1 : buffer.length + f.length + endSp.length + 3 < 32000
    · rw [if_pos h1]
      exact ih _ _ fun g hg => hall g (List.mem_cons_of_mem f hg)
    · rw [if_neg h1, if_pos (hall f (List.mem_cons_self f fs))]
      exact ih _ _ fun g hg => hall g (List.mem_cons_of_mem f hg)

/-- Oversized-file half of the termination argument: a file that fails
the length check even against a fresh buffer is never popped, and the
embedded loop diverges (result `none`). -/
theorem split_cmd_go_diverges (startSp endSp : String) :
    ∀ (fs : List String) (buffer : String) (cmds : List String),
      startSp.length ≤ buffer.length →
      (∃ f ∈ fs, ¬ startSp.length + f.length + endSp.length + 3 < 32000) →
      split_cmd_go startSp endSp fs buffer cmds = none := by
  intro fs
  induction fs with
  | nil =>
    intro buffer cmds _ hex
    obtain ⟨f, hf, _⟩ := hex
    exact absurd hf (List.not_mem_nil f)
  | cons f fs ih =>
    intro buffer cmds hsp hex
    obtain ⟨g, hg, hgv⟩ := hex
    unfold split_cmd_go
    rcases List.mem_cons.mp hg with rfl | hg2
    · have h1 : ¬ buffer.length + g.length + endSp.length + 3 < 32000 := by omega
      rw [if_neg h1, if_neg hgv]
    · by_cases h1 : buffer.length + f.length + endSp.length + 3 < 32000
      · rw [if_pos h1]
        refine ih _ _ ?_ ⟨g, hg2, hgv⟩
        rw [wrap_length]
        omega
      · by_cases h2 : startSp.length + f.length + endSp.length + 3 < 32000
        · rw [if_neg h1, if_pos h2]
          refine ih _ _ ?_ ⟨g, hg2, hgv⟩
          rw [wrap_length]
          omega
        · rw [if_neg h1, if_neg h2]

theorem start_space_length (start : String) :
    (start ++ " ").length = start.length + 1 := by
  rw [String.length_append]
  rfl

theorem space_end_length (endStr : String) :
    (" " ++ endStr).length = endStr.length + 1 := by
  rw [String.length_append]
  show 1 + endStr.length = endStr.length + 1
  omega

/-- C3.  `split_cmd` terminates (returns a value) when every file name
satisfies `len(start) + len(name) + len(end) + 5 < 32000`; when some file
name violates that bound, the loop never pops it — it fails the length
check even against a freshly reset buffer — and the function never
returns (embedded as the result `none`). -/
theorem split_cmd_termination (start : String) (files : List String)
    (endStr : String) :
    ((∀ f ∈ files, start.length + f.length + endStr.length + 5 < 32000) →
      (split_cmd start files endStr).isSome)
    ∧ ((∃ f ∈ files, ¬ start.length + f.length + endStr.length + 5 < 32000) →
      split_cmd start files endStr = none) := by
  constructor
  · intro hall
    apply split_cmd_go_total
    intro f hf
    have hb := hall f hf
    rw [start_space_length, space_end_length]
    omega
  · intro hex
    apply split_cmd_go_diverges _ _ _ _ _ (Nat.le_refl _)
    obtain ⟨f, hf, hv⟩ := hex
    refine ⟨f, hf, ?_⟩
    rw [start_space_length, space_end_length]
    omega

/-- Witness for C3: a small input on which the loop terminates, and an
input holding a 32000-character file name on which it diverges. -/
theorem split_cmd_termination_witness :
    (split_cmd "a" ["f1"] "b").isSome ∧
      split_cmd "" [bigName] "" = none := by
  constructor
  · exact (split_cmd_termination "a" ["f1"] "b").1 (by decide)
  · refine (split_cmd_termination "" [bigName] "").2
      ⟨bigName, List.mem_singleton.mpr rfl, ?_⟩
    have h := bigName_length
    show ¬ "".length + bigName.length + "".length + 5 < 32000
    rw [h]
    omega

/-- C7 counterexample: with an empty file list and start `"a"`, end
`"b"`, the single produced batch is `"a  b"` (start, the separating
space, then the space-prefixed suffix), which differs from the plain
concatenation `"ab"` of the two arguments. -/
theorem split_cmd_empty_counterexample :
    split_cmd "a" [] "b" = some ["a  b"] ∧ ("a" ++ "b" : String) ≠ "a  b" := by
  constructor
  · rfl
  · intro h
    exact absurd (congrArg String.data h) (by decide)

/-- C7 (amended).  An empty file list always produces exactly one batch,
equal to the start string, a separating space, and the right-stripped
space-prefixed end string — not the plain concatenation of start and
end. -/
theorem split_cmd_empty_batch (start endStr : String) :
    split_cmd start [] endStr =
      some [start ++ " " ++ pyRstrip (" " ++ endStr)] := by
  show some ([] ++ [start ++ " " ++ pyRstrip (" " ++ endStr)]) = _
  rw [List.nil_append]

end utils
end djvubind

namespace djvubind
namespace organizer

/-- One page of the book (`organizer.Page.__init__`): the constructor
stores the (absolutized) path and the pre-inspection defaults.  The
filesystem absolutization of the path is abstracted: `path` holds the
stored path. -/
structure Page where
  path : String
  bitonal : Option Bool := none
  dpi : Int := 0
  text : String := ""
  title : Option String := none
deriving DecidableEq

/-- The four named supplement slots of `organizer.Book.__init__`
(the source spells the attribute `suppliments`). -/
structure Suppliments where
  cover_front : Option String := none
  cover_back : Option String := none
  metadata : Option String := none
  bookmarks : Option String := none
deriving DecidableEq

/-- `organizer.Book.__init__`: no pages, empty supplement slots, no book
dpi yet. -/
structure Book where
  pages : List Page := []
  suppliments : Suppliments := {}
  dpi : Option Int := none
deriving DecidableEq

/-- The page-identifying first line of the three lines printed by
`Book.get_dpi` on a dpi mismatch; one list entry stands for one emitted
diagnostic. -/
def mismatchMsg (path : String) : String :=
  "msg: [organizer.Book.analyze()] " ++ path

/-- The loop of `organizer.Book.get_dpi`: `d` is the running `self.dpi`.
For each page, when the running value is set and differs from the page
dpi a diagnostic is emitted; the running value is then overwritten with
the page dpi unconditionally. -/
def get_dpi_go : Option Int → List Page → Option Int × List String
  | d, [] => (d, [])
  | d, p :: ps =>
    let diags :=
      match d with
      | some v => if p.dpi ≠ v then [mismatchMsg p.path] else []
      | none => []
    let rest := get_dpi_go (some p.dpi) ps
    (rest.1, diags ++ rest.2)

/-- `organizer.Book.get_dpi`: the updated book together with the emitted
diagnostics, in order. -/
def Book.get_dpi (b : Book) : Book × List String :=
  let r := get_dpi_go b.dpi b.pages
  ({ b with dpi := r.1 }, r.2)

/-- Python `str(x)` on the tri-state `bitonal` attribute
(`None`/`True`/`False`). -/
def pyStrOptBool : Option Bool → String
  | none => "None"
  | some true => "True"
  | some false => "False"

/-- Python `str(x)` on the optional `title` attribute (a string prints
as itself, `None` as `"None"`). -/
def pyStrOptStr : Option String → String
  | none => "None"
  | some s => s

/-- One row of `organizer.Book.save_report`:
`", ".join([page.path, str(page.bitonal), str(page.dpi),
str(page.title), str(len(page.text))])`. -/
def Page.report_entry (p : Page) : String :=
  String.intercalate ", "
    [p.path, pyStrOptBool p.bitonal, toString p.dpi, pyStrOptStr p.title,
      toString p.text.length]

/-- `organizer.Book.save_report`: the full text written to `book.csv`,
as the sequence of `handle.write` calls produces it — the header line,
then for each page its row and a newline. -/
def Book.save_report (b : Book) : String :=
  b.pages.foldl (fun acc p => acc ++ p.report_entry ++ "\n")
    "Path, Bitonal, DPI, Title, OCR\n"

/-- Python `int(s)` restricted to the forms that occur here: an optional
sign followed by decimal digits (Python additionally tolerates
surrounding whitespace and underscores; those forms never reach this
call site). -/
def digitsToNatAux (acc : Nat) : List Char → Option Nat
  | [] => some acc
  | c :: cs =>
    if '0' ≤ c ∧ c ≤ '9' then
      digitsToNatAux (acc * 10 + (c.toNat - '0'.toNat)) cs
    else none

def pySign : List Char → Int × List Char
  | '-' :: r => (-1, r)
  | '+' :: r => (1, r)
  | r => (1, r)

def pyInt? (s : String) : Option Int :=
  let sr := pySign s.data
  if sr.2.isEmpty then none
  else (digitsToNatAux 0 sr.2).map (fun n => sr.1 * (n : Int))

/-- Python `float(s)` restricted to finite decimal literals: an optional
sign, digits, an optional point and fraction digits.  The result is the
exact value as a fraction: `some (num, k)` stands for `num / 10 ^ k`.
(Exponent, infinity and nan forms never reach this call site.) -/
def pyFloat? (s : String) : Option (Int × Nat) :=
  let sr := pySign s.data
  match splitOnceL '.' sr.2 with
  | none =>
    if sr.2.isEmpty then none
    else (digitsToNatAux 0 sr.2).map (fun n => (sr.1 * (n : Int), 0))
  | some (a, b) =>
    if a.isEmpty && b.isEmpty then none
    else if b.contains '.' then none
    else
      match digitsToNatAux 0 a, digitsToNatAux 0 b with
      | some na, some nb =>
        some (sr.1 * ((na * 10 ^ b.length + nb : Nat) : Int), b.length)
      | _, _ => none

/-- Python `round(x)` on the exact fraction `num / den` (`den` positive):
round half to even, the semantics of the builtin `round`. -/
def pyRoundHalfEven (num den : Int) : Int :=
  if 2 * (num - num.ediv den * den) < den then num.ediv den
  else if den < 2 * (num - num.ediv den * den) then num.ediv den + 1
  else if (num.ediv den).emod 2 = 0 then num.ediv den
  else num.ediv den + 1

/-- The failure modes of `organizer.Page.get_dpi`: the explicit
`ValueError` raised for an unrecognized unit token (its message formats
`resolution[0]`, the numeric token, which the constructor carries), the
`ValueError` that `int`/`float` raise on a malformed numeric token, and
the `IndexError` raised when the split output has no second token. -/
inductive DpiError where
  | unknownUnit (value : String)
  | badNumber (value : String)
  | indexError
deriving DecidableEq

/-- The parse-and-store body of `organizer.Page.get_dpi` (the code
from `.decode('ascii').split(' ')` through the `raise`): what would be
done with the decoded output `output` of the introspection command once
obtained.  The source computes `resolution = output.split(' ')` and
dispatches on `resolution[1]`.  In the per-centimeter branch the source
stores `round(float(resolution[0]) * 2.54)`: the parsed decimal is the
exact fraction `num / 10 ^ k`, the literal `2.54` is the exact
`254 / 100`, and Python `round` is round-half-to-even, so the stored
dpi is the half-even rounding of `num * 254 / (10 ^ k * 100)`.  (The
binary floating-point evaluation of the source may differ from this
exact arithmetic only when both sit within one float ulp of a tie.)
In the current source this body is dead code: the enclosing call raises
first, see `Page.get_dpi` below. -/
def Page.get_dpi_parse (p : Page) (output : String) : Except DpiError Page :=
  let resolution := pySplit output ' '
  match resolution.get? 1 with
  | none => Except.error DpiError.indexError
  | some u =>
    if u = "PixelsPerInch" then
      match pyInt? (resolution.headD "") with
      | some n => Except.ok { p with dpi := n }
      | none => Except.error (DpiError.badNumber (resolution.headD ""))
    else if u = "PixelsPerCentimeter" then
      match pyFloat? (resolution.headD "") with
      | some nk =>
        Except.ok { p with dpi := pyRoundHalfEven (nk.1 * 254) (10 ^ nk.2 * 100) }
      | none => Except.error (DpiError.badNumber (resolution.headD ""))
    else Except.error (DpiError.unknownUnit (resolution.headD ""))

/-- What `organizer.Page.get_dpi` can raise as a whole: the `TypeError`
raised at the `utils.execute(cmd, capture=True)` call itself, or (were
that call ever to succeed) an error of the parsing body. -/
inductive PyError where
  | typeError (msg : String)
  | dpiError (e : DpiError)
deriving DecidableEq

/-- The parameter list of `utils.execute` (utils.py:180):
`def execute(cmd)` — one positional parameter, no `capture` (the
comment under it records that the capture parameter was removed). -/
def execute_params : List String := ["cmd"]

/-- The keyword arguments `organizer.Page.get_dpi` passes at its
`utils.execute` call site (organizer.py:93): `capture=True`. -/
def get_dpi_call_keywords : List String := ["capture"]

/-- Python call-time binding: every keyword argument must name a
parameter of the callee, otherwise the call raises `TypeError` before
the callee body runs. -/
def keywordsAccepted (params kws : List String) : Bool :=
  kws.all fun k => params.contains k

/-- `organizer.Page.get_dpi`.  Its first statement calls
`utils.execute('identify -ping -format %x ...', capture=True)`, but
`utils.execute` accepts only `cmd`, so Python raises `TypeError` at the
call — before any output exists to decode or parse.  Only if the
keyword were accepted would the decoded output `output` reach the
parsing body `Page.get_dpi_parse`. -/
def Page.get_dpi (p : Page) (output : String) : Except PyError Page :=
  if keywordsAccepted execute_params get_dpi_call_keywords then
    match Page.get_dpi_parse p output with
    | Except.ok q => Except.ok q
    | Except.error e => Except.error (PyError.dpiError e)
  else
    Except.error (PyError.typeError
      "execute() got an unexpected keyword argument: capture")

end organizer
end djvubind

namespace djvubind
namespace organizer

theorem get_dpi_go_last (d : Option Int) (ps : List Page) :
    (get_dpi_go d ps).1 =
      (ps.map (fun p => (some p.dpi : Option Int))).getLastD d := by
  induction ps generalizing d with
  | nil => rfl
  | cons p ps ih =>
    show (get_dpi_go (some p.dpi) ps).1 = _
    rw [ih, List.map_cons, List.getLastD_cons]

/-- The fresh book with page dpis 300, 300, 600, 300 named by the
claim. -/
def sampleBook : Book :=
  { pages := [{ path := "p1.tif", dpi := 300 }, { path := "p2.tif", dpi := 300 },
      { path := "p3.tif", dpi := 600 }, { path := "p4.tif", dpi := 300 }] }

/-- C4.  Deriving the book dpi on a fresh book whose pages have dpis
300, 300, 600, 300 yields book dpi 300 and exactly two mismatch
diagnostics, one naming the page that jumps to 600 and one naming the
page that returns to 300; in general the run never fails and the final
book dpi is the last page's dpi (the initial value when there are no
pages). -/
theorem book_get_dpi_last_wins :
    ((sampleBook.get_dpi).1.dpi = some 300
      ∧ (sampleBook.get_dpi).2 = [mismatchMsg "p3.tif", mismatchMsg "p4.tif"]
      ∧ (sampleBook.get_dpi).2.length = 2)
    ∧ ∀ b : Book, ((b.get_dpi).1).dpi =
        (b.pages.map (fun p => (some p.dpi : Option Int))).getLastD b.dpi := by
  constructor
  · exact ⟨rfl, rfl, rfl⟩
  · intro b
    exact get_dpi_go_last b.dpi b.pages

/-- C5 (code bug).  At an introspection output whose second token is
neither recognized unit — where the claim says the unknown-unit error
is raised — the program as written instead raises `TypeError` at the
`utils.execute(capture=True)` call (a keyword stale since the `capture`
parameter was removed from `utils.execute`), so the unknown-unit error
never surfaces and no page is ever returned; the parsing body alone —
the dead code, which implements the claimed intent — would raise
exactly the unknown-unit error (carrying the numeric token, as the
source message formats `resolution[0]`) and return no dpi. -/
theorem page_get_dpi_unknown_unit (p : Page) (output u : String)
    (hu : (pySplit output ' ').get? 1 = some u)
    (h1 : u ≠ "PixelsPerInch") (h2 : u ≠ "PixelsPerCentimeter") :
    Page.get_dpi p output = Except.error (PyError.typeError
      "execute() got an unexpected keyword argument: capture")
    ∧ (∀ q : Page, Page.get_dpi p output ≠ Except.ok q)
    ∧ (∀ v : String, Page.get_dpi p output ≠
        Except.error (PyError.dpiError (DpiError.unknownUnit v)))
    ∧ Page.get_dpi_parse p output =
        Except.error (DpiError.unknownUnit ((pySplit output ' ').headD ""))
    ∧ (∀ q : Page, Page.get_dpi_parse p output ≠ Except.ok q) := by
  have htype : Page.get_dpi p output = Except.error (PyError.typeError
      "execute() got an unexpected keyword argument: capture") := rfl
  have hparse : Page.get_dpi_parse p output =
      Except.error (DpiError.unknownUnit ((pySplit output ' ').headD "")) := by
    show (match (pySplit output ' ').get? 1 with
      | none => Except.error DpiError.indexError
      | some u =>
        if u = "PixelsPerInch" then
          match pyInt? ((pySplit output ' ').headD "") with
          | some n => Except.ok { p with dpi := n }
          | none => Except.error (DpiError.badNumber ((pySplit output ' ').headD ""))
        else if u = "PixelsPerCentimeter" then
          match pyFloat? ((pySplit output ' ').headD "") with
          | some nk => Except.ok
              { p with dpi := pyRoundHalfEven (nk.1 * 254) (10 ^ nk.2 * 100) }
          | none => Except.error (DpiError.badNumber ((pySplit output ' ').headD ""))
        else Except.error (DpiError.unknownUnit ((pySplit output ' ').headD ""))) = _
    rw [hu]
    show (if u = "PixelsPerInch" then _ else _) = _
    rw [if_neg h1, if_neg h2]
  refine ⟨htype, ?_, ?_, hparse, ?_⟩
  · intro q hq
    rw [htype] at hq
    exact Except.noConfusion hq
  · intro v hv2
    rw [htype] at hv2
    simp at hv2
  · intro q hq
    rw [hparse] at hq
    exact Except.noConfusion hq

/-- Witness for C5 at a concrete introspection output. -/
theorem page_get_dpi_unknown_unit_witness :
    Page.get_dpi { path := "x.tif" } "100 Undefined" =
      Except.error (PyError.typeError
        "execute() got an unexpected keyword argument: capture")
    ∧ Page.get_dpi_parse { path := "x.tif" } "100 Undefined" =
      Except.error (DpiError.unknownUnit "100")
    ∧ ∀ q : Page,
        Page.get_dpi_parse { path := "x.tif" } "100 Undefined" ≠ Except.ok q := by
  have h := page_get_dpi_unknown_unit { path := "x.tif" } "100 Undefined"
    "Undefined" (by decide) (by decide) (by decide)
  refine ⟨h.1, ?_, h.2.2.2.2⟩
  rw [h.2.2.2.1]
  rw [show (pySplit "100 Undefined" ' ').headD "" = "100" from rfl]

theorem pyRoundHalfEven_nearest (num den : Int) (hden : 0 < den) :
    (2 * (pyRoundHalfEven num den * den - num)).natAbs ≤ den.natAbs := by
  unfold pyRoundHalfEven
  have h1 : den * (num.ediv den) + num.emod den = num := Int.ediv_add_emod num den
  rw [Int.mul_comm den] at h1
  have h2 : 0 ≤ num.emod den := Int.emod_nonneg num (by omega)
  have h3 : num.emod den < den := Int.emod_lt_of_pos num hden
  by_cases c1 : 2 * (num - num.ediv den * den) < den
  · rw [if_pos c1]
    omega
  · rw [if_neg c1]
    by_cases c2 : den < 2 * (num - num.ediv den * den)
    · rw [if_pos c2, add_mul, one_mul]
      omega
    · rw [if_neg c2]
      by_cases c3 : (num.ediv den).emod 2 = 0
      · rw [if_pos c3]
        omega
      · rw [if_neg c3, add_mul, one_mul]
        omega

/-- C8 (code bug).  The program as written never stores any dpi: every
call of `Page.get_dpi` raises `TypeError` at the
`utils.execute(capture=True)` call, before any output is parsed.  The
parsing body alone — the dead code, which implements the claimed
intent — stores dpi `round(100 * 2.54) = 254` for the per-centimeter
value `100`; in general a per-centimeter token parsing to the exact
decimal `num / 10 ^ k` stores the half-even rounding of
`num * 254 / (10 ^ k * 100)` — the exact-arithmetic reading of
`round(v * 2.54)` — and a per-inch token stores its integer value
directly.  The final conjunct certifies that the rounding function
deviates from the exact quotient by at most one half. -/
theorem page_get_dpi_centimeter (p : Page) :
    Page.get_dpi p "100 PixelsPerCentimeter" = Except.error (PyError.typeError
      "execute() got an unexpected keyword argument: capture")
    ∧ (∀ (output : String) (q : Page), Page.get_dpi p output ≠ Except.ok q)
    ∧ Page.get_dpi_parse p "100 PixelsPerCentimeter" =
        Except.ok { p with dpi := 254 }
    ∧ (∀ (output v : String) (num : Int) (k : Nat),
        pySplit output ' ' = [v, "PixelsPerCentimeter"] →
        pyFloat? v = some (num, k) →
        Page.get_dpi_parse p output =
          Except.ok { p with dpi := pyRoundHalfEven (num * 254) (10 ^ k * 100) })
    ∧ (∀ (output v : String) (n : Int),
        pySplit output ' ' = [v, "PixelsPerInch"] →
        pyInt? v = some n →
        Page.get_dpi_parse p output = Except.ok { p with dpi := n })
    ∧ (∀ num den : Int, 0 < den →
        (2 * (pyRoundHalfEven num den * den - num)).natAbs ≤ den.natAbs) := by
  refine ⟨rfl, ?_, rfl, ?_, ?_, fun num den h => pyRoundHalfEven_nearest num den h⟩
  · intro output q hq
    have htype : Page.get_dpi p output = Except.error (PyError.typeError
        "execute() got an unexpected keyword argument: capture") := rfl
    rw [htype] at hq
    exact Except.noConfusion hq
  · intro output v num k hsplit hv
    show (match (pySplit output ' ').get? 1 with
      | none => Except.error DpiError.indexError
      | some u =>
        if u = "PixelsPerInch" then
          match pyInt? ((pySplit output ' ').headD "") with
          | some n => Except.ok { p with dpi := n }
          | none => Except.error (DpiError.badNumber ((pySplit output ' ').headD ""))
        else if u = "PixelsPerCentimeter" then
          match pyFloat? ((pySplit output ' ').headD "") with
          | some nk => Except.ok
              { p with dpi := pyRoundHalfEven (nk.1 * 254) (10 ^ nk.2 * 100) }
          | none => Except.error (DpiError.badNumber ((pySplit output ' ').headD ""))
        else Except.error (DpiError.unknownUnit ((pySplit output ' ').headD ""))) = _
    rw [hsplit]
    show (if ("PixelsPerCentimeter" : String) = "PixelsPerInch" then _ else _) = _
    rw [if_neg (by decide), if_pos rfl]
    show (match pyFloat? v with
      | some nk => Except.ok
          { p with dpi := pyRoundHalfEven (nk.1 * 254) (10 ^ nk.2 * 100) }
      | none => Except.error (DpiError.badNumber v)) = _
    rw [hv]
  · intro output v n hsplit hv
    show (match (pySplit output ' ').get? 1 with
      | none => Except.error DpiError.indexError
      | some u =>
        if u = "PixelsPerInch" then
          match pyInt? ((pySplit output ' ').headD "") with
          | some n => Except.ok { p with dpi := n }
          | none => Except.error (DpiError.badNumber ((pySplit output ' ').headD ""))
        else if u = "PixelsPerCentimeter" then
          match pyFloat? ((pySplit output ' ').headD "") with
          | some nk => Except.ok
              { p with dpi := pyRoundHalfEven (nk.1 * 254) (10 ^ nk.2 * 100) }
          | none => Except.error (DpiError.badNumber ((pySplit output ' ').headD ""))
        else Except.error (DpiError.unknownUnit ((pySplit output ' ').headD ""))) = _
    rw [hsplit]
    show (if ("PixelsPerInch" : String) = "PixelsPerInch" then _ else _) = _
    rw [if_pos rfl]
    show (match pyInt? v with
      | some m => Except.ok { p with dpi := m }
      | none => Except.error (DpiError.badNumber v)) = _
    rw [hv]

/-- Witness for C8 at concrete introspection outputs. -/
theorem page_get_dpi_centimeter_witness :
    Page.get_dpi { path := "y.tif" } "100 PixelsPerCentimeter" =
      Except.error (PyError.typeError
        "execute() got an unexpected keyword argument: capture")
    ∧ Page.get_dpi_parse { path := "y.tif" } "100 PixelsPerCentimeter" =
      Except.ok { path := "y.tif", dpi := 254 }
    ∧ Page.get_dpi_parse { path := "y.tif" } "300 PixelsPerInch" =
      Except.ok { path := "y.tif", dpi := 300 } := by
  have h := page_get_dpi_centimeter { path := "y.tif" }
  exact ⟨h.1, h.2.2.1,
    h.2.2.2.2.1 "300 PixelsPerInch" "300" 300 (by decide) (by decide)⟩

theorem save_report_foldl (ps : List Page) (acc : String) :
    ps.foldl (fun a p => a ++ p.report_entry ++ "\n") acc =
      acc ++ String.join (ps.map (fun p => p.report_entry ++ "\n")) := by
  induction ps generalizing acc with
  | nil =>
    show acc = acc ++ String.join []
    rw [show String.join [] = "" from rfl, string_append_empty]
  | cons p ps ih =>
    show ps.foldl _ (acc ++ p.report_entry ++ "\n") = _
    rw [ih, List.map_cons, string_join_cons]
    simp only [string_append_assoc]

/-- C9.  The report text is exactly the header line
`Path, Bitonal, DPI, Title, OCR` followed by one comma-joined row per
page in insertion order — each row the page path, the printed bitonal
state, the dpi, the printed title, and the length of the recognized
text, in that order — every line newline-terminated. -/
theorem save_report_format (b : Book) :
    Book.save_report b =
      "Path, Bitonal, DPI, Title, OCR\n" ++
        String.join (b.pages.map (fun p =>
          String.intercalate ", "
            [p.path, pyStrOptBool p.bitonal, toString p.dpi,
              pyStrOptStr p.title, toString p.text.length] ++ "\n"))
    ∧ ∃ rest : String,
        Book.save_report b = "Path, Bitonal, DPI, Title, OCR\n" ++ rest := by
  have h := save_report_foldl b.pages "Path, Bitonal, DPI, Title, OCR\n"
  exact ⟨h, ⟨_, h⟩⟩

end organizer
end djvubind

namespace Djvubind
namespace organizer

/-- The observable file-system side effects of `Djvubind/organizer.py`,
`Page.ocr`, in chronological order: the external `convert` command, the
`shutil.copy2` call, the call into the text-recognition collaborator,
and `os.remove`. -/
inductive Effect where
  | convert (src dst : String)
  | copy2 (src dst : String)
  | getText (path : String)
  | removeFile (path : String)
deriving DecidableEq

/-- `Djvubind/organizer.py`, `Page.ocr`.  `get_text` is the
text-recognition collaborator (`Djvubind.ocr.get_text`), which either
returns text or raises; `path` is `self.path`.  The result pairs the
chronological effect trace with the outcome.  The source has no
`try`/`finally`: when `get_text` raises, execution aborts at that point,
so the trace stops before the `os.remove` call and the exception
propagates. -/
def ocr (get_text : String → Except Unit String) (path : String) :
    List Effect × Except Unit String :=
  let ext := (pySplit path '.').getLastD ""
  if ext = "jpg" ∨ ext = "jpeg" then
    match get_text (path ++ ".tif") with
    | Except.ok t =>
      ([Effect.convert path (path ++ ".tif"), Effect.getText (path ++ ".tif"),
        Effect.removeFile (path ++ ".tif")], Except.ok t)
    | Except.error e =>
      ([Effect.convert path (path ++ ".tif"), Effect.getText (path ++ ".tif")],
        Except.error e)
  else if ext = "tiff" then
    match get_text (path ++ ".tif") with
    | Except.ok t =>
      ([Effect.copy2 path (path ++ ".tif"), Effect.getText (path ++ ".tif"),
        Effect.removeFile (path ++ ".tif")], Except.ok t)
    | Except.error e =>
      ([Effect.copy2 path (path ++ ".tif"), Effect.getText (path ++ ".tif")],
        Except.error e)
  else if ext = "tif" then
    match get_text path with
    | Except.ok t => ([Effect.getText path], Except.ok t)
    | Except.error e => ([Effect.getText path], Except.error e)
  else ([], Except.ok "")

end organizer
end Djvubind

namespace Djvubind
namespace organizer

/-- C6 counterexample: on a JPEG page whose recognizer raises, the
effect trace of `Page.ocr` contains no removal of the intermediate file
`a.jpg.tif` — the failure propagates before cleanup, so the intermediate
is left behind. -/
theorem ocr_failure_keeps_intermediate :
    (ocr (fun _ => Except.error ()) "a.jpg").2 = Except.error ()
    ∧ Effect.removeFile "a.jpg.tif" ∉ (ocr (fun _ => Except.error ()) "a.jpg").1 := by
  constructor
  · rfl
  · decide

/-- C6 (amended).  For a JPEG-family or TIFF-variant page the
intermediate file is deleted after recognition on the success path only:
when the recognizer raises, the exception propagates before the removal,
no removal appears in the trace, and the intermediate file is left
behind. -/
theorem ocr_intermediate_cleanup (get_text : String → Except Unit String)
    (path : String)
    (hext : (pySplit path '.').getLastD "" = "jpg"
      ∨ (pySplit path '.').getLastD "" = "jpeg"
      ∨ (pySplit path '.').getLastD "" = "tiff") :
    (∀ t : String, get_text (path ++ ".tif") = Except.ok t →
      Effect.removeFile (path ++ ".tif") ∈ (ocr get_text path).1
        ∧ (ocr get_text path).2 = Except.ok t)
    ∧ (∀ e : Unit, get_text (path ++ ".tif") = Except.error e →
      Effect.removeFile (path ++ ".tif") ∉ (ocr get_text path).1
        ∧ (ocr get_text path).2 = Except.error e) := by
  have hbody : ocr get_text path =
      if (pySplit path '.').getLastD "" = "jpg"
          ∨ (pySplit path '.').getLastD "" = "jpeg" then
        match get_text (path ++ ".tif") with
        | Except.ok t =>
          ([Effect.convert path (path ++ ".tif"), Effect.getText (path ++ ".tif"),
            Effect.removeFile (path ++ ".tif")], Except.ok t)
        | Except.error e =>
          ([Effect.convert path (path ++ ".tif"), Effect.getText (path ++ ".tif")],
            Except.error e)
      else if (pySplit path '.').getLastD "" = "tiff" then
        match get_text (path ++ ".tif") with
        | Except.ok t =>
          ([Effect.copy2 path (path ++ ".tif"), Effect.getText (path ++ ".tif"),
            Effect.removeFile (path ++ ".tif")], Except.ok t)
        | Except.error e =>
          ([Effect.copy2 path (path ++ ".tif"), Effect.getText (path ++ ".tif")],
            Except.error e)
      else if (pySplit path '.').getLastD "" = "tif" then
        match get_text path with
        | Except.ok t => ([Effect.getText path], Except.ok t)
        | Except.error e => ([Effect.getText path], Except.error e)
      else ([], Except.ok "") := rfl
  constructor
  · intro t hok
    rw [hbody]
    rcases hext with h | h | h
    · rw [if_pos (Or.inl h), hok]
      exact ⟨by simp, rfl⟩
    · rw [if_pos (Or.inr h), hok]
      exact ⟨by simp, rfl⟩
    · have hne : ¬ ((pySplit path '.').getLastD "" = "jpg"
          ∨ (pySplit path '.').getLastD "" = "jpeg") := by
        rw [h]; decide
      rw [if_neg hne, if_pos h, hok]
      exact ⟨by simp, rfl⟩
  · intro e herr
    rw [hbody]
    rcases hext with h | h | h
    · rw [if_pos (Or.inl h), herr]
      exact ⟨by simp, rfl⟩
    · rw [if_pos (Or.inr h), herr]
      exact ⟨by simp, rfl⟩
    · have hne : ¬ ((pySplit path '.').getLastD "" = "jpg"
          ∨ (pySplit path '.').getLastD "" = "jpeg") := by
        rw [h]; decide
      rw [if_neg hne, if_pos h, herr]
      exact ⟨by simp, rfl⟩

/-- Witness for C6 (amended) at a concrete page and recognizer. -/
theorem ocr_intermediate_cleanup_witness :
    Effect.removeFile ("b.jpeg" ++ ".tif") ∈
        (ocr (fun _ => Except.ok "text") "b.jpeg").1
      ∧ (ocr (fun _ => Except.ok "text") "b.jpeg").2 = Except.ok "text" :=
  (ocr_intermediate_cleanup (fun _ => Except.ok "text") "b.jpeg"
    (Or.inr (Or.inl (by decide)))).1 "text" rfl

end organizer
end Djvubind

namespace djvubind
namespace utils

/-- Store step of `utils.parse_config` after the `'=' in line` test:
when the split succeeded, strip both sides into the option/value pair;
otherwise the line contributes nothing. -/
def parse_pair : Option (List Char × List Char) → Option (String × String)
  | some ov => some (pyStrip (String.mk ov.1), pyStrip (String.mk ov.2))
  | none => none

/-- One line of `utils.parse_config`: strip the line, blank it when the
stripped form starts with `#`, and when a `=` remains split at the
first `=` and strip both sides.  `none` means the line contributes no
option/value pair. -/
def parse_line (line : String) : Option (String × String) :=
  parse_pair (splitOnceL '='
    (if pyStartswith (pyStrip line) "#" then "" else pyStrip line).data)

/-- Assignment `options[option] = value` on the association-list model
of the Python dict: overwrite an existing key in place, append a new
one. -/
def updateOption (opts : List (String × String)) (k v : String) :
    List (String × String) :=
  if opts.any (fun kv => kv.1 = k) then
    opts.map (fun kv => if kv.1 = k then (k, v) else kv)
  else opts ++ [(k, v)]

/-- `utils.parse_config`, with the file content given as its list of
lines. -/
def parse_config (lines : List String) : List (String × String) :=
  lines.foldl
    (fun opts line =>
      match parse_line line with
      | some ov => updateOption opts ov.1 ov.2
      | none => opts) []

end utils
end djvubind

-- list lemmas about the Python string primitives

theorem dropWhile_head_false (p : Char → Bool) (l : List Char) (x : Char)
    (xs : List Char) (h : l.dropWhile p = x :: xs) : p x = false := by
  have h2 := List.head?_dropWhile_not p l
  rw [h] at h2
  simp at h2
  exact h2

theorem dropWhile_cons_false (p : Char → Bool) (x : Char) (t : List Char)
    (hx : p x = false) : (x :: t).dropWhile p = x :: t := by
  rw [List.dropWhile_cons, hx]
  simp

theorem dropWhile_idem (p : Char → Bool) (l : List Char) :
    (l.dropWhile p).dropWhile p = l.dropWhile p := by
  cases h : l.dropWhile p with
  | nil => rfl
  | cons x xs =>
    exact dropWhile_cons_false p x xs (dropWhile_head_false p l x xs h)

theorem dropWhile_all_ws (w : List Char) (hw : ∀ c ∈ w, pyWs c = true) :
    w.dropWhile pyWs = [] := by
  induction w with
  | nil => rfl
  | cons x xs ih =>
    rw [List.dropWhile_cons, hw x (List.mem_cons_self x xs)]
    exact ih fun c hc => hw c (List.mem_cons_of_mem x hc)

theorem dtws_nil : dropTrailingWs [] = [] := rfl

theorem dtws_cons_keep (x : Char) (t : List Char) (hx : pyWs x = false) :
    dropTrailingWs (x :: t) = x :: dropTrailingWs t := by
  unfold dropTrailingWs
  rw [List.reverse_cons, List.dropWhile_append]
  by_cases h : (t.reverse.dropWhile pyWs).isEmpty
  · rw [if_pos h, dropWhile_cons_false pyWs x [] hx]
    rw [List.isEmpty_iff] at h
    rw [h]
    rfl
  · rw [if_neg h, List.reverse_append]
    rfl

theorem dtws_ne_nil (x : Char) (t : List Char) (hx : pyWs x = false) :
    dropTrailingWs (x :: t) ≠ [] := by
  rw [dtws_cons_keep x t hx]
  exact List.cons_ne_nil x (dropTrailingWs t)

theorem dtws_append_keep (xs ys : List Char) (h : dropTrailingWs ys ≠ []) :
    dropTrailingWs (xs ++ ys) = xs ++ dropTrailingWs ys := by
  unfold dropTrailingWs at h ⊢
  rw [List.reverse_append, List.dropWhile_append]
  have hne : ¬ (ys.reverse.dropWhile pyWs).isEmpty = true := by
    rw [List.isEmpty_iff]
    intro hc
    rw [hc] at h
    exact h rfl
  rw [if_neg hne, List.reverse_append, List.reverse_reverse]

theorem dtws_append_ws (ys w : List Char) (hw : ∀ c ∈ w, pyWs c = true) :
    dropTrailingWs (ys ++ w) = dropTrailingWs ys := by
  unfold dropTrailingWs
  rw [List.reverse_append, List.dropWhile_append]
  have hw2 : w.reverse.dropWhile pyWs = [] :=
    dropWhile_all_ws w.reverse fun c hc => hw c (List.mem_reverse.mp hc)
  rw [hw2]
  rfl

theorem stripL_append_ws (l w : List Char) (hw : ∀ c ∈ w, pyWs c = true) :
    pyStripL (l ++ w) = pyStripL l := by
  unfold pyStripL
  rw [List.dropWhile_append]
  by_cases h : (l.dropWhile pyWs).isEmpty
  · rw [if_pos h, List.isEmpty_iff.mp h, dropWhile_all_ws w hw]
  · rw [if_neg h, dtws_append_ws _ w hw]

theorem stripL_ws_append (w l : List Char) (hw : ∀ c ∈ w, pyWs c = true) :
    pyStripL (w ++ l) = pyStripL l := by
  unfold pyStripL
  rw [List.dropWhile_append, dropWhile_all_ws w hw]
  rfl

theorem stripL_dtws (b : List Char) :
    pyStripL (dropTrailingWs b) = pyStripL b := by
  have hdec : b = dropTrailingWs b ++ (b.reverse.takeWhile pyWs).reverse := by
    unfold dropTrailingWs
    rw [← List.reverse_append, List.takeWhile_append_dropWhile, List.reverse_reverse]
  have hw : ∀ c ∈ (b.reverse.takeWhile pyWs).reverse, pyWs c = true := by
    intro c hc
    exact List.mem_takeWhile_imp (List.mem_reverse.mp hc)
  calc pyStripL (dropTrailingWs b)
      = pyStripL (dropTrailingWs b ++ (b.reverse.takeWhile pyWs).reverse) :=
        (stripL_append_ws _ _ hw).symm
    _ = pyStripL b := by rw [← hdec]

theorem splitOnceL_append (c : Char) (a b : List Char) (ha : c ∉ a) :
    splitOnceL c (a ++ c :: b) = some (a, b) := by
  induction a with
  | nil =>
    show splitOnceL c (c :: b) = some ([], b)
    unfold splitOnceL
    rw [if_pos rfl]
  | cons x xs ih =>
    have hx : ¬ x = c := fun h => ha (h ▸ List.mem_cons_self x xs)
    show splitOnceL c (x :: (xs ++ c :: b)) = some (x :: xs, b)
    unfold splitOnceL
    rw [if_neg hx, ih fun h => ha (List.mem_cons_of_mem x h)]

theorem strip_ne_dropWhile_ne (key : String) (h : pyStrip key ≠ "") :
    key.data.dropWhile pyWs ≠ [] := by
  intro hc
  apply h
  show String.mk (pyStripL key.data) = ""
  unfold pyStripL
  rw [hc]
  rfl

theorem leadsWith_hash (x : Char) (t : List Char) :
    leadsWith ['#'] (x :: t) = if '#' = x then true else false := by
  show (if '#' = x then leadsWith [] t else false) = _
  by_cases h : '#' = x
  · rw [if_pos h, if_pos h]
    rfl
  · rw [if_neg h, if_neg h]

namespace djvubind
namespace utils

/-- Parsing a stripped-to-`a = b` shaped line: when the part before the
first `=` holds no `=`, has a non-whitespace character, and its stripped
form does not start the comment marker, the line yields the stripped
pair. -/
theorem parse_line_keyval (a b : List Char)
    (ha : ('=' : Char) ∉ a)
    (hne : a.dropWhile pyWs ≠ [])
    (hh : leadsWith ['#'] (pyStripL a) = false) :
    parse_line (String.mk (a ++ '=' :: b)) =
      some (String.mk (pyStripL a), String.mk (pyStripL b)) := by
  obtain ⟨x, xs, hxs⟩ := List.exists_cons_of_ne_nil hne
  have hpx : pyWs x = false := dropWhile_head_false pyWs a x xs hxs
  have h1 : (a ++ '=' :: b).dropWhile pyWs = (x :: xs) ++ '=' :: b := by
    rw [List.dropWhile_append]
    have hie : ¬ (a.dropWhile pyWs).isEmpty = true := by
      rw [List.isEmpty_iff]
      exact hne
    rw [if_neg hie, hxs]
  have h2 : dropTrailingWs ('=' :: b) = '=' :: dropTrailingWs b :=
    dtws_cons_keep '=' b (by decide)
  have h3 : pyStripL (a ++ '=' :: b) = (x :: xs) ++ '=' :: dropTrailingWs b := by
    unfold pyStripL
    rw [h1, dtws_append_keep (x :: xs) ('=' :: b)
      (by rw [h2]; exact List.cons_ne_nil _ _), h2]
  have h4 : pyStripL a = x :: dropTrailingWs xs := by
    unfold pyStripL
    rw [hxs, dtws_cons_keep x xs hpx]
  have hx9 : ¬ ('#' = x) := by
    intro hcc
    rw [h4, leadsWith_hash, if_pos hcc] at hh
    exact Bool.noConfusion hh
  have hps : pyStrip (String.mk (a ++ '=' :: b)) =
      String.mk ((x :: xs) ++ '=' :: dropTrailingWs b) := by
    show String.mk (pyStripL (a ++ '=' :: b)) = _
    rw [h3]
  have hsw : pyStartswith (pyStrip (String.mk (a ++ '=' :: b))) "#" = false := by
    rw [hps]
    show leadsWith ['#'] (x :: (xs ++ '=' :: dropTrailingWs b)) = false
    rw [leadsWith_hash, if_neg hx9]
  have hsplit : splitOnceL '=' ((x :: xs) ++ '=' :: dropTrailingWs b) =
      some (x :: xs, dropTrailingWs b) := by
    refine splitOnceL_append '=' (x :: xs) _ ?_
    rw [← hxs]
    exact fun hm => ha ((List.dropWhile_sublist pyWs).subset hm)
  have e1 : pyStrip (String.mk (x :: xs)) = String.mk (pyStripL a) := by
    show String.mk (pyStripL (x :: xs)) = _
    have : pyStripL (x :: xs) = pyStripL a := by
      unfold pyStripL
      rw [dropWhile_cons_false pyWs x xs hpx, hxs]
    rw [this]
  have e2 : pyStrip (String.mk (dropTrailingWs b)) = String.mk (pyStripL b) := by
    show String.mk (pyStripL (dropTrailingWs b)) = _
    rw [stripL_dtws]
  unfold parse_line
  rw [hsw, if_neg (fun hcc => Bool.noConfusion hcc), hps]
  rw [show (String.mk ((x :: xs) ++ '=' :: dropTrailingWs b)).data =
    (x :: xs) ++ '=' :: dropTrailingWs b from rfl]
  rw [hsplit]
  show some (pyStrip (String.mk (x :: xs)), pyStrip (String.mk (dropTrailingWs b))) =
    some (String.mk (pyStripL a), String.mk (pyStripL b))
  rw [e1, e2]

/-- A line whose stripped form starts with `#` is blanked and yields no
pair. -/
theorem parse_line_comment (l : String) (h : pyStartswith l "#" = true) :
    parse_line l = none := by
  cases hd : l.data with
  | nil =>
    exfalso
    have h2 : leadsWith ['#'] l.data = true := h
    rw [hd] at h2
    exact Bool.noConfusion h2
  | cons x t =>
    have hx : '#' = x := by
      have h2 : leadsWith ['#'] l.data = true := h
      rw [hd, leadsWith_hash] at h2
      by_cases hc : '#' = x
      · exact hc
      · rw [if_neg hc] at h2
        exact absurd h2 Bool.noConfusion
    subst hx
    have hstrip : pyStrip l = String.mk ('#' :: dropTrailingWs t) := by
      show String.mk (pyStripL l.data) = _
      rw [hd]
      unfold pyStripL
      rw [dropWhile_cons_false pyWs '#' t (by decide),
        dtws_cons_keep '#' t (by decide)]
    have hsw : pyStartswith (pyStrip l) "#" = true := by
      rw [hstrip]
      show leadsWith ['#'] ('#' :: dropTrailingWs t) = true
      rw [leadsWith_hash, if_pos rfl]
    unfold parse_line
    rw [hsw, if_pos rfl]
    rfl

/-- C10.  For every key and value without internal `=` (the key with
some non-whitespace content and not opening a comment), the spaced line
`key = value` and the unspaced line `key=value` parse to the identical
stripped pair; a line whose stripped form begins with `#` contributes no
pair at all; and a `#` after the value on a `key=value` line is kept
literally in the value. -/
theorem parse_config_spacing (key value : String)
    (hk : ('=' : Char) ∉ key.data) (hv : ('=' : Char) ∉ value.data)
    (hne : pyStrip key ≠ "") (hcm : pyStartswith (pyStrip key) "#" = false) :
    (parse_line (key ++ " = " ++ value) = some (pyStrip key, pyStrip value)
      ∧ parse_line (key ++ "=" ++ value) = some (pyStrip key, pyStrip value))
    ∧ (∀ l : String, pyStartswith l "#" = true → parse_line l = none)
    ∧ parse_config ["key=value # c"] = [("key", "value # c")] := by
  have hdw : key.data.dropWhile pyWs ≠ [] := strip_ne_dropWhile_ne key hne
  have hh : leadsWith ['#'] (pyStripL key.data) = false := hcm
  refine ⟨⟨?_, ?_⟩, parse_line_comment, by decide⟩
  · have hlist : (key ++ " = " ++ value) =
        String.mk ((key.data ++ [' ']) ++ '=' :: (' ' :: value.data)) := by
      show String.mk ((key.data ++ [' ', '=', ' ']) ++ value.data) = _
      congr 1
      simp [List.append_assoc]
    have ha : ('=' : Char) ∉ key.data ++ [' '] := by
      intro hm
      rcases List.mem_append.mp hm with hm | hm
      · exact hk hm
      · simp at hm
    have hne2 : (key.data ++ [' ']).dropWhile pyWs ≠ [] := by
      rw [List.dropWhile_append]
      have hie : ¬ (key.data.dropWhile pyWs).isEmpty = true := by
        rw [List.isEmpty_iff]
        exact hdw
      rw [if_neg hie]
      simp
    have hh2 : leadsWith ['#'] (pyStripL (key.data ++ [' '])) = false := by
      rw [stripL_append_ws key.data [' '] (by decide)]
      exact hh
    rw [hlist, parse_line_keyval (key.data ++ [' ']) (' ' :: value.data) ha hne2 hh2]
    rw [stripL_append_ws key.data [' '] (by decide)]
    rw [show (' ' :: value.data) = [' '] ++ value.data from rfl,
      stripL_ws_append [' '] value.data (by decide)]
    rfl
  · have hlist : (key ++ "=" ++ value) =
        String.mk (key.data ++ '=' :: value.data) := by
      show String.mk ((key.data ++ ['=']) ++ value.data) = _
      congr 1
      simp [List.append_assoc]
    rw [hlist, parse_line_keyval key.data value.data hk hdw hh]
    rfl

/-- Witness for C10 at concrete key/value strings and a concrete comment
line. -/
theorem parse_config_spacing_witness :
    parse_line ("key" ++ " = " ++ "v al") = some ("key", "v al")
    ∧ parse_line ("key" ++ "=" ++ "v al") = some ("key", "v al")
    ∧ parse_line "# comment" = none := by
  have h := parse_config_spacing "key" "v al" (by decide) (by decide)
    (by decide) (by decide)
  exact ⟨h.1.1.trans (by decide), h.1.2.trans (by decide),
    h.2.1 "# comment" (by decide)⟩

end utils
end djvubind
